import Mathlib

/-!
Verification of dockpeek-security against its specification.

Each section shallowly embeds one module of the Python source
(`src/dockpeek/dockpeek/…`) as executable Lean definitions, and the
theorems at the end settle the specification claims about them.
-/

set_option maxRecDepth 4000

/-! ## Embedding of `version_checker.py` — `VersionParser` -/

/-- A parsed version tuple `(is_date_based, major, minor, patch, build, suffix)`
as produced by `VersionParser.parse`. -/
structure VerTuple where
  isDate : Bool
  major : Nat
  minor : Nat
  patch : Nat
  build : Nat
  suffix : String
deriving DecidableEq, Repr

/-- `pat` matches at the start of `s` (list-of-char version). -/
def startsWithL : List Char → List Char → Bool
  | _, [] => true
  | [], _ :: _ => false
  | c :: cs, p :: ps => c = p && startsWithL cs ps

/-- `pat` occurs as a contiguous substring of `s` (Python `pat in s`). -/
def hasSub (s pat : List Char) : Bool :=
  match s with
  | [] => startsWithL [] pat
  | _ :: cs => startsWithL s pat || hasSub cs pat

/-- Lowercase a character sequence (Python `str.lower`, ASCII range). -/
def toLowerL (l : List Char) : List Char := l.map Char.toLower

/-- Split a character sequence on the characters satisfying `p`
(Python `re.split` / `str.split` semantics: empty parts are kept). -/
def splitOnP (p : Char → Bool) : List Char → List Char → List (List Char)
  | [], acc => [acc.reverse]
  | c :: cs, acc => if p c then acc.reverse :: splitOnP p cs [] else splitOnP p cs (c :: acc)

/-- Split, starting from an empty accumulator. -/
def splitL (l : List Char) (p : Char → Bool) : List (List Char) := splitOnP p l []

namespace VersionParser

/-- `PLATFORM_SUFFIXES` from the source. -/
def platformSuffixes : List String :=
  ["-windowsservercore", "-nanoserver", "-windows",
   "-linux", "-alpine", "-slim", "-buster", "-bullseye", "-bookworm",
   "-arm64", "-amd64", "-armhf", "-arm32v7", "-arm64v8",
   "-ltsc2019", "-ltsc2022", "-1809"]

/-- `UNSTABLE_INDICATORS` from the source. -/
def unstableIndicators : List String :=
  ["develop", "dev", "beta", "alpha", "rc", "nightly",
   "unstable", "test", "snapshot", "canary", "preview",
   "pre", "edge", "experimental", "trunk", "master", "main",
   "next", "tip", "draft", "staging", "ci", "build", "hotfix"]

/-- `VersionParser.is_platform_specific`: any platform suffix occurs
as a substring of the lowercased tag. -/
def isPlatformSpecific (tag : String) : Bool :=
  platformSuffixes.any (fun suf => hasSub (toLowerL tag.toList) suf.toList)

/-- `VersionParser.is_unstable`: split the lowercased tag on `-`, `.`, `_`
and test whether any component is an unstable indicator. -/
def isUnstable (tag : String) : Bool :=
  let parts := splitL (toLowerL tag.toList) (fun c => c = '-' || c = '.' || c = '_')
  unstableIndicators.any (fun ind => parts.contains ind.toList)

/-- `VersionParser.is_date_based_version`. -/
def isDateBasedVersion (major minor patch : Nat) : Bool :=
  decide (2019 ≤ major ∧ major ≤ 2099 ∧ 1 ≤ minor ∧ minor ≤ 12 ∧ 1 ≤ patch ∧ patch ≤ 31)

/-- A nonempty string of decimal digits (one `\d+` regex group). -/
def isDigitStr (s : List Char) : Bool :=
  !s.isEmpty && s.all Char.isDigit

/-- Decimal value of a digit sequence (Python `int`). -/
def natOfL (s : List Char) : Nat :=
  s.foldl (fun acc c => acc * 10 + (c.toNat - 48)) 0

/-- `int(g) if g else 0` for an optional digit group. -/
def natOf (s : List Char) : Nat := natOfL s

/-- Tags excluded up front by `VersionParser.parse`. -/
def blockedTags : List String :=
  ["latest", "stable", "edge", "dev", "nightly", "master", "main"]

/-- `VersionParser.parse`.  The regex
`^v?(\d+)(?:\.(\d+))?(?:\.(\d+))?(?:\.(\d+))?(?:-(.+))?$` splits the tag at
the first `-` (the numeric groups cannot contain `-`, and the suffix group
`(.+)` must be nonempty); the part before it, after an optional leading `v`,
must be 1–4 dot-separated nonempty digit groups.  A single numeric group
(`groups[1] is None`) is rejected. -/
def parse (tag : String) : Option VerTuple :=
  if blockedTags.contains tag then none
  else
    let chars := tag.toList
    let verChars := chars.takeWhile (fun c => c ≠ '-')
    let rest := chars.dropWhile (fun c => c ≠ '-')
    -- regex fails when a dash is present but the suffix `(.+)` is empty
    if rest = ['-'] then none
    else
      let suffix : String := match rest with
        | _ :: s => String.mk s
        | [] => ""
      let core := match verChars with
        | 'v' :: cs => cs
        | cs => cs
      let segs := splitL core (fun c => c = '.')
      if segs.all isDigitStr ∧ segs.length ≤ 4 then
        if segs.length < 2 then none
        else
          let major := natOf (segs.getD 0 [])
          let minor := natOf (segs.getD 1 [])
          let patch := natOf (segs.getD 2 [])
          let build := natOf (segs.getD 3 [])
          some ⟨isDateBasedVersion major minor patch, major, minor, patch, build, suffix⟩
      else none

/-- `VersionParser.compare`: `-1` if `v1 < v2`, `0` if equal, `1` if `v1 > v2`. -/
def compare (v1 v2 : VerTuple) : Int :=
  if v1.isDate ∧ ¬v2.isDate then -1
  else if ¬v1.isDate ∧ v2.isDate then 1
  else if v1.major < v2.major then -1
  else if v2.major < v1.major then 1
  else if v1.minor < v2.minor then -1
  else if v2.minor < v1.minor then 1
  else if v1.patch < v2.patch then -1
  else if v2.patch < v1.patch then 1
  else if v1.build < v2.build then -1
  else if v2.build < v1.build then 1
  else if v1.suffix ≠ "" ∧ v2.suffix = "" then -1
  else if v1.suffix = "" ∧ v2.suffix ≠ "" then 1
  else 0

/-- Characterization (for the theorems below): strict lexicographic order
on the numeric components, as the positional loop of `compare` walks them. -/
def numLt (a b : VerTuple) : Prop :=
  a.major < b.major ∨ (a.major = b.major ∧ (a.minor < b.minor ∨ (a.minor = b.minor ∧
    (a.patch < b.patch ∨ (a.patch = b.patch ∧ a.build < b.build)))))

/-- Characterization: equal numeric components. -/
def numEq (a b : VerTuple) : Prop :=
  a.major = b.major ∧ a.minor = b.minor ∧ a.patch = b.patch ∧ a.build = b.build

/-- Characterization: the strict order `compare` decides — date-based
before semantic, then the numeric components positionally, then a
suffixed tuple before the same numerics without a suffix. -/
def keyLt (a b : VerTuple) : Prop :=
  (a.isDate = true ∧ b.isDate = false) ∨
  (a.isDate = b.isDate ∧ (numLt a b ∨ (numEq a b ∧ a.suffix ≠ "" ∧ b.suffix = "")))

/-- `VersionParser.is_newer`. -/
def isNewer (current candidate : String) : Bool :=
  match parse current, parse candidate with
  | some v1, some v2 => decide (compare v1 v2 < 0)
  | _, _ => false

end VersionParser

/-! ## Embedding of `version_checker.py` — `NewVersionChecker.check_for_newer_version` -/

/-- Consume one or more digits, returning the remainder (regex `\d+`,
greedy; no backtracking is needed before a literal `.`). -/
def chompDigits : List Char → Option (List Char)
  | c :: cs => if c.isDigit then some (cs.dropWhile Char.isDigit) else none
  | [] => none

/-- Regex `\d+\.\d+\.\d+` matching at the head of the sequence. -/
def compoundAt (l : List Char) : Bool :=
  match chompDigits l with
  | some ('.' :: r1) =>
    match chompDigits r1 with
    | some ('.' :: r2) => (chompDigits r2).isSome
    | _ => false
  | _ => false

/-- `re.search(r"\d+\.\d+\.\d+", s)`: the pattern matches at some position. -/
def hasCompoundVersion : List Char → Bool
  | [] => false
  | c :: cs => compoundAt (c :: cs) || hasCompoundVersion cs

namespace NewVersionChecker

/-- The local helper `count_version_segments` inside
`check_for_newer_version`: strip leading `v`s, take the part before the
first `-`, and count dots plus one. -/
def countVersionSegments (tag : String) : Nat :=
  let ver := (tag.toList.dropWhile (fun c => c = 'v')).takeWhile (fun c => c ≠ '-')
  (ver.filter (fun c => c = '.')).length + 1

/-- One surviving candidate `(tag, tag_version, is_tag_platform_specific,
is_tag_unstable)` collected by the filtering loop. -/
structure Candidate where
  tag : String
  ver : VerTuple
  plat : Bool
  unstable : Bool
deriving DecidableEq, Repr

/-- The body of the filtering loop of `check_for_newer_version`: parse the
tag, require it strictly newer, then apply the stability, platform,
compound-suffix and segment-count filters. -/
def filterCandidate (cur : VerTuple) (curUnstable curPlat : Bool) (curTag tag : String) :
    Option Candidate :=
  match VersionParser.parse tag with
  | none => none
  | some tv =>
    if VersionParser.compare cur tv < 0 then
      let tu := VersionParser.isUnstable tag
      let tp := VersionParser.isPlatformSpecific tag
      if tu && !curUnstable then none
      else if tp && !curPlat then none
      else if tv.suffix ≠ "" ∧ hasCompoundVersion tv.suffix.toList then none
      else if countVersionSegments tag < countVersionSegments curTag then none
      else some ⟨tag, tv, tp, tu⟩
    else none

/-- `1` for `True`, `0` for `False` (Python bool ordering in sort keys). -/
def boolNat (b : Bool) : Nat := if b then 1 else 0

/-- Python sort key
`(x[3], x[2], x[1][0], tuple(-v for v in x[1][1:5]))` flattened to one
integer list compared lexicographically. -/
def candKey (c : Candidate) : List Int :=
  [boolNat c.unstable, boolNat c.plat, boolNat c.ver.isDate,
   -(c.ver.major : Int), -(c.ver.minor : Int), -(c.ver.patch : Int), -(c.ver.build : Int)]

/-- Lexicographic strict comparison of integer lists (Python tuple `<`
restricted to equal lengths, which is all the sort uses). -/
def listLt : List Int → List Int → Bool
  | [], [] => false
  | [], _ :: _ => true
  | _ :: _, [] => false
  | a :: xs, b :: ys => if a < b then true else if b < a then false else listLt xs ys

/-- Head of the stable ascending sort: the first element whose key is
minimal (Python `list.sort` is stable, so `sorted[0]` is the first
occurrence of the minimum). -/
def minFrom (a : Candidate) (l : List Candidate) : Candidate :=
  l.foldl (fun m c => if listLt (candKey c) (candKey m) then c else m) a

/-- The collected list of candidates surviving the filtering loop, in
registry order. -/
def survivors (cur : VerTuple) (curUnstable curPlat : Bool) (curTag : String)
    (tags : List String) : List Candidate :=
  tags.filterMap (filterCandidate cur curUnstable curPlat curTag)

/-- `NewVersionChecker.check_for_newer_version`, network and cache layers
stripped to their pure core: given the current tag and the registry tag
list, return the tag (with its parsed tuple) that the sorted newer-version
list puts first, or `none`. -/
def checkForNewerVersion (curTag : String) (tags : List String) :
    Option (String × VerTuple) :=
  match VersionParser.parse curTag with
  | none => none
  | some cur =>
    let curUnstable := VersionParser.isUnstable curTag
    let curPlat := VersionParser.isPlatformSpecific curTag
    match survivors cur curUnstable curPlat curTag tags with
    | [] => none
    | c :: cs => some ((minFrom c cs).tag, (minFrom c cs).ver)

end NewVersionChecker

/-! ## Embedding of `shared_cache.py` — `FileBasedCache`

Time is modelled by naturals (`datetime.now()` readings), the JSON cache
file by an association list.  Entries written by the operations under
verification always carry non-null data, so `data` is modelled as a plain
value. -/

namespace FileBasedCache

/-- One cache-file entry: `{'data': …, 'timestamp': …}`. -/
structure Entry (α : Type) where
  data : α
  timestamp : Nat
deriving DecidableEq, Repr

/-- Key lookup in the JSON object (`cache[key]`). -/
def lookup {α : Type} (cache : List (String × Entry α)) (k : String) : Option (Entry α) :=
  (cache.find? (fun e => e.1 == k)).map Prod.snd

/-- `FileBasedCache.get`: return `(value, True)` while
`now - timestamp < duration`, else `(None, False)`. -/
def get {α : Type} (cache : List (String × Entry α)) (k : String) (now ttl : Nat) :
    Option α × Bool :=
  match lookup cache k with
  | some e => if now - e.timestamp < ttl then (some e.data, true) else (none, false)
  | none => (none, false)

/-- Dict assignment `cache[key] = {'data': …, 'timestamp': now}`:
replace the entry for the key, or append a fresh one. -/
def set {α : Type} : List (String × Entry α) → String → α → Nat → List (String × Entry α)
  | [], k, v, t => [(k, ⟨v, t⟩)]
  | e :: es, k, v, t => if e.1 = k then (k, ⟨v, t⟩) :: es else e :: set es k v t

end FileBasedCache

/-! ## Embedding of `trivy_utils.py` — scan-result data model -/

namespace Trivy

/-- `Vulnerability` dataclass.  `cvss_score` is a float in the source; its
magnitude plays no role in any claim, so it is carried as an integer. -/
structure Vulnerability where
  cveId : String
  severity : String
  title : String
  description : String
  pkgName : String
  installedVersion : String
  fixedVersion : Option String
  cvssScore : Option Int
  cvssVector : Option String
deriving DecidableEq, Repr

/-- `VulnerabilitySummary` dataclass. -/
structure VulnerabilitySummary where
  critical : Nat
  high : Nat
  medium : Nat
  low : Nat
  unknown : Nat
deriving DecidableEq, Repr

/-- The `total` property: sum of the per-severity counts. -/
def VulnerabilitySummary.total (s : VulnerabilitySummary) : Nat :=
  s.critical + s.high + s.medium + s.low + s.unknown

/-- `ScanResult` dataclass (timestamps as naturals, duration as integer). -/
structure ScanResult where
  image : String
  imageDigest : String
  scanTimestamp : Nat
  scanDuration : Int
  vulnerabilities : List Vulnerability
  summary : VulnerabilitySummary
  error : Option String
deriving DecidableEq, Repr

/-- The JSON dict produced by `Vulnerability.to_dict`. -/
structure VulnDict where
  vulnerabilityId : String
  cveId : String
  severity : String
  title : String
  description : String
  pkgName : String
  installedVersion : String
  fixedVersion : Option String
  cvssScore : Option Int
  cvssVector : Option String
deriving DecidableEq, Repr

/-- The JSON dict produced by `VulnerabilitySummary.to_dict`. -/
structure SummaryDict where
  critical : Nat
  high : Nat
  medium : Nat
  low : Nat
  unknown : Nat
  total : Nat
deriving DecidableEq, Repr

/-- The JSON dict produced by `_serialize_scan_result`. -/
structure ScanDict where
  image : String
  imageDigest : String
  scanTimestamp : Nat
  scanDuration : Int
  vulnerabilities : List VulnDict
  summary : SummaryDict
  error : Option String
deriving DecidableEq, Repr

/-- `Vulnerability.to_dict`. -/
def Vulnerability.toDict (v : Vulnerability) : VulnDict :=
  ⟨v.cveId, v.cveId, v.severity, v.title, v.description, v.pkgName,
   v.installedVersion, v.fixedVersion, v.cvssScore, v.cvssVector⟩

/-- `VulnerabilitySummary.to_dict`. -/
def VulnerabilitySummary.toDict (s : VulnerabilitySummary) : SummaryDict :=
  ⟨s.critical, s.high, s.medium, s.low, s.unknown, s.total⟩

/-- `_serialize_scan_result` on a non-null result. -/
def serializeScanResult (r : ScanResult) : ScanDict :=
  ⟨r.image, r.imageDigest, r.scanTimestamp, r.scanDuration,
   r.vulnerabilities.map Vulnerability.toDict, r.summary.toDict, r.error⟩

/-- The per-vulnerability part of `_deserialize_scan_result`:
`v.get('cve_id') or v.get('vulnerability_id', 'UNKNOWN')` (an empty
`cve_id` is falsy and falls back to `vulnerability_id`). -/
def deserializeVuln (v : VulnDict) : Vulnerability :=
  ⟨if v.cveId ≠ "" then v.cveId else v.vulnerabilityId,
   v.severity, v.title, v.description, v.pkgName, v.installedVersion,
   v.fixedVersion, v.cvssScore, v.cvssVector⟩

/-- `_deserialize_scan_result` on a non-null dict: the summary is rebuilt
from the per-severity counts (the stored `total` is ignored). -/
def deserializeScanResult (d : ScanDict) : ScanResult :=
  ⟨d.image, d.imageDigest, d.scanTimestamp, d.scanDuration,
   d.vulnerabilities.map deserializeVuln,
   ⟨d.summary.critical, d.summary.high, d.summary.medium, d.summary.low, d.summary.unknown⟩,
   d.error⟩

end Trivy

/-! ## Embedding of `scan_history.py` — fingerprints and trend -/

namespace ScanHistory

/-- One row of the `fingerprint_history` table. -/
structure FpRow where
  imageDigest : String
  fingerprint : String
  cveId : String
  severity : String
  firstSeenAt : Nat
deriving DecidableEq, Repr

/-- `ScanHistoryDB.record_fingerprint`: guarded by the enabled flag and a
nonempty fingerprint; `INSERT OR IGNORE` under `UNIQUE(image_digest,
fingerprint)` drops the row when the pair already exists. -/
def recordFingerprint (enabled : Bool) (db : List FpRow)
    (imageDigest fingerprint cveId severity : String) (now : Nat) : List FpRow :=
  if enabled = false ∨ fingerprint = "" then db
  else if db.any (fun r => r.imageDigest == imageDigest && r.fingerprint == fingerprint) then db
  else db ++ [⟨imageDigest, fingerprint, cveId, severity, now⟩]

/-- One row of the `scan_results` table (the columns `calculate_trend`
reads). -/
structure ScanRow where
  imageDigest : String
  scanTimestamp : Nat
  criticalCount : Nat
  highCount : Nat
  totalCount : Nat
  error : Option String
deriving DecidableEq, Repr

/-- `TrendData` dataclass. -/
structure TrendData where
  direction : String
  previousTotal : Nat
  currentTotal : Nat
  deltaCritical : Int
  deltaHigh : Int
  scanCount : Nat
deriving DecidableEq, Repr

/-- Stable insertion step for descending sort by `scan_timestamp`. -/
def insertDesc (r : ScanRow) : List ScanRow → List ScanRow
  | [] => [r]
  | x :: xs => if x.scanTimestamp ≤ r.scanTimestamp then r :: x :: xs else x :: insertDesc r xs

/-- Sort rows by `scan_timestamp` descending (the `ORDER BY scan_timestamp
DESC`; ties keep their table order). -/
def sortByTimestampDesc (rows : List ScanRow) : List ScanRow :=
  rows.foldr insertDesc []

/-- The query of `calculate_trend`:
`WHERE image_digest = ? AND error IS NULL ORDER BY scan_timestamp DESC LIMIT 2`. -/
def recentScans (db : List ScanRow) (digest : String) : List ScanRow :=
  (sortByTimestampDesc (db.filter
    (fun r => r.imageDigest == digest && r.error == none))).take 2

/-- `ScanHistoryDB.calculate_trend`. -/
def calculateTrend (enabled : Bool) (db : List ScanRow) (digest : String) : TrendData :=
  if enabled = false then ⟨"unknown", 0, 0, 0, 0, 0⟩
  else
    match recentScans db digest with
    | [] => ⟨"unknown", 0, 0, 0, 0, 0⟩
    | [r] => ⟨"unknown", 0, r.totalCount, 0, 0, 1⟩
    | current :: previous :: _ =>
      let deltaTotal : Int := (current.totalCount : Int) - (previous.totalCount : Int)
      ⟨if deltaTotal < 0 then "improving"
        else if deltaTotal > 0 then "degrading"
        else "stable",
       previous.totalCount, current.totalCount,
       (current.criticalCount : Int) - (previous.criticalCount : Int),
       (current.highCount : Int) - (previous.highCount : Int), 2⟩

end ScanHistory

/-! ## Embedding of `docker_utils.py` — `ContainerStatusExtractor` -/

namespace DockerUtils

/-- One observation of a container, as `get_status_with_exit_code` sees it.
`statusFails` models `container.status` raising (both inside the guarded
block and in the fallback of the generic handler); `attrsFail` models the
`State` attributes raising after the status was read; `timesOut` models the
`SIGALRM` bounded wait expiring. -/
structure ContainerObs where
  status : String
  healthStatus : Option String
  exitCode : Option Int
  timesOut : Bool
  statusFails : Bool
  attrsFail : Bool
deriving DecidableEq, Repr

/-- `ContainerStatusExtractor.get_status_with_exit_code`. -/
def getStatusWithExitCode (c : ContainerObs) : String × Option Int :=
  if c.timesOut then ("timeout", none)
  else if c.statusFails then ("error", none)
  else if c.attrsFail then (c.status, none)
  else if c.status = "exited" ∨ c.status = "dead" then (c.status, c.exitCode)
  else if c.status = "paused" ∨ c.status = "restarting" ∨ c.status = "removing" ∨
      c.status = "created" then (c.status, none)
  else if c.status = "running" then
    match c.healthStatus with
    | some h =>
      if h = "healthy" then ("healthy", none)
      else if h = "unhealthy" then ("unhealthy", c.exitCode)
      else if h = "starting" then ("starting", none)
      else ("running", none)
    | none => ("running", none)
  else (c.status, none)

end DockerUtils

/-! ## Embedding of `update.py` — `UpdateChecker` -/

namespace UpdateChecker

/-- `UpdateChecker._parse_image_name`: `rsplit(':', 1)`, defaulting the tag
to `latest`. -/
def parseImageName (imageName : String) : String × String :=
  if imageName.toList.contains ':' then
    let revl := imageName.toList.reverse
    (String.mk ((revl.dropWhile (fun c => c ≠ ':')).drop 1).reverse,
     String.mk (revl.takeWhile (fun c => c ≠ ':')).reverse)
  else (imageName, "latest")

/-- `'-'.join(parts)`. -/
def joinDash : List (List Char) → List Char
  | [] => []
  | [x] => x
  | x :: y :: rest => x ++ '-' :: joinDash (y :: rest)

/-- `UpdateChecker._resolve_floating_tag`. -/
def resolveFloatingTag (mode : String) (currentTag : String) : String :=
  if mode = "disabled" ∨ currentTag = "latest" then currentTag
  else if mode = "latest" then "latest"
  else
    let dashParts := splitL currentTag.toList (fun c => c = '-')
    let versionPart := dashParts.getD 0 []
    let suffix : List Char :=
      if currentTag.toList.contains '-' then '-' :: joinDash (dashParts.drop 1) else []
    if mode = "major" then
      let parts := splitL versionPart (fun c => c = '.')
      if VersionParser.isDigitStr (parts.getD 0 []) then String.mk (parts.getD 0 [] ++ suffix)
      else currentTag
    else if mode = "minor" then
      let parts := splitL versionPart (fun c => c = '.')
      if 2 ≤ parts.length ∧ VersionParser.isDigitStr (parts.getD 0 []) ∧ VersionParser.isDigitStr (parts.getD 1 []) then
        String.mk (parts.getD 0 [] ++ '.' :: parts.getD 1 [] ++ suffix)
      else currentTag
    else currentTag

/-- String-keyed association-map assignment (replace or append). -/
def setAssoc : List (String × String) → String → String → List (String × String)
  | [], k, v => [(k, v)]
  | e :: es, k, v => if e.1 = k then (k, v) :: es else e :: setAssoc es k v

/-- String-keyed association-map lookup. -/
def lookupStr (m : List (String × String)) (k : String) : Option String :=
  (m.find? (fun e => e.1 == k)).map Prod.snd

/-- `UpdateChecker.get_cache_key`. -/
def getCacheKey (serverName containerName imageName : String) : String :=
  serverName ++ ":" ++ containerName ++ ":" ++ imageName

/-- Result of one `check_image_updates` call: the returned boolean, the
update-decision cache afterwards, and whether a pull was attempted. -/
structure CheckOutcome where
  result : Bool
  cache : List (String × FileBasedCache.Entry Bool)
  pulled : Bool
deriving DecidableEq, Repr

/-- `UpdateChecker.check_image_updates` chained with `_pull_and_compare`.
The shared cancellation token is read at three points (before starting,
after the cache miss before pulling, and after the pull completes); since
another thread may flip it between reads, the three observed values are the
inputs `c1`, `c2`, `c3`.  `registry` maps an image reference to the image
id a successful pull resolves it to (`none` means the pull raises);
`pullTimesOut` models the bounded `future.result(timeout=…)` expiring.
Every value returned by `_pull_and_compare` is stored in the cache;
the pre-pull cancellation return is not. -/
def checkImageUpdates (floatingTagMode : String) (registry : List (String × String))
    (cache : List (String × FileBasedCache.Entry Bool)) (ttl now : Nat)
    (c1 c2 c3 : Bool) (serverName containerName imageId imageRef : String)
    (pullTimesOut : Bool) : CheckOutcome :=
  if c1 then ⟨false, cache, false⟩
  else if imageId = "" then ⟨false, cache, false⟩
  else if imageRef = "" then ⟨false, cache, false⟩
  else
    let key := getCacheKey serverName containerName imageRef
    match FileBasedCache.get cache key now ttl with
    | (some v, true) => ⟨v, cache, false⟩
    | _ =>
      let base := (parseImageName imageRef).1
      let resolvedTag := resolveFloatingTag floatingTagMode (parseImageName imageRef).2
      if c2 then ⟨false, cache, false⟩
      else
        let r : Bool :=
          if pullTimesOut then false
          else match lookupStr registry (base ++ ":" ++ resolvedTag) with
            | none => false
            | some newId => if c3 then false else imageId != newId
        ⟨r, FileBasedCache.set cache key r now, true⟩

end UpdateChecker

/-! ## Embedding of `update_manager.py` — `ContainerUpdater` -/

namespace UpdateManager

/-- A container as `_do_update` observes it: `imageId` is
`attrs['Image']`, `imageRef` is `attrs['Config']['Image']`. -/
structure Cont where
  name : String
  contId : String
  imageId : String
  imageRef : String
  labels : List (String × String)
  networkMode : String
deriving DecidableEq, Repr

/-- Docker state visible to the updater: containers, the local image
store, and what the registry would deliver for a pull of each reference. -/
structure DockerSt where
  containers : List UpdateManager.Cont
  localImages : List (String × String)
  registry : List (String × String)
deriving DecidableEq, Repr

/-- Side effects of an update run, in order. -/
inductive Eff where
  | pull (image : String)
  | stop (name : String)
  | remove (name : String)
  | create (name image : String)
  | start (name : String)
deriving DecidableEq, Repr

/-- Status part of the result dict. -/
inductive UpdateStatus where
  | inProgress
  | blocked
  | success
  | failed
deriving DecidableEq, Repr

/-- The result dict of `update` / `_do_update`. -/
structure UpdateResult where
  status : UpdateStatus
  message : String
deriving DecidableEq, Repr

/-- `labels.get(key, '')`. -/
def getLabel (labels : List (String × String)) (k : String) : String :=
  (UpdateChecker.lookupStr labels k).getD ""

/-- `client.containers.get(name)` (lookup by name). -/
def findContainer (st : DockerSt) (name : String) : Option Cont :=
  st.containers.find? (fun c => c.name == name)

/-- The orchestration-label check: `labels.get('dockpeek.update.action',
'').lower() in ('skip', 'pin')`. -/
def updateActionBlocked (c : Cont) : Bool :=
  let act := String.mk (toLowerL (getLabel c.labels "dockpeek.update.action").toList)
  act == "skip" || act == "pin"

/-- `_get_dependent_containers`: containers (other than the target) whose
network mode is `container:<name>` or `container:<id>`. -/
def dependentContainers (st : DockerSt) (c : Cont) : List Cont :=
  st.containers.filter (fun o =>
    o.contId != c.contId &&
    (o.networkMode == "container:" ++ c.name || o.networkMode == "container:" ++ c.contId))

/-- `_get_image_info`: resolve the floating tag; when it changes, rebuild
the reference, otherwise keep the container's stored reference.  `none`
models the `ContainerUpdateError` raised for a missing image name. -/
def getImageInfo (floatingTagMode : String) (c : Cont) : Option (String × String) :=
  if c.imageRef = "" then none
  else
    let (base, curTag) := UpdateChecker.parseImageName c.imageRef
    let resolved := UpdateChecker.resolveFloatingTag floatingTagMode curTag
    let img := if resolved ≠ curTag then base ++ ":" ++ resolved else c.imageRef
    some (img, c.imageId)

/-- `_pull_image`: fetch the registry's id for the reference into the local
store; `none` models the pull raising `ContainerUpdateError`. -/
def pullImage (st : DockerSt) (imageName : String) : Option DockerSt :=
  match UpdateChecker.lookupStr st.registry imageName with
  | some i => some { st with localImages := UpdateChecker.setAssoc st.localImages imageName i }
  | none => none

/-- `_has_updates`: compare the container's image id with the local image's
id; any lookup failure counts as an update being available. -/
def hasUpdatesB (st : DockerSt) (imageName containerImageId : String) : Bool :=
  match UpdateChecker.lookupStr st.localImages imageName with
  | some i => containerImageId != i
  | none => true

/-- The success path of `_perform_update` followed by the dependent
recreation loop of `_do_update`: the old container is stopped and removed,
a replacement with the same name is created from the pulled image and
started, and each dependent container is recreated the same way.  The
failure/rollback handling of `_perform_update` is outside every claim and
not modelled. -/
def performUpdate (st : DockerSt) (c : Cont) (imageName : String) (deps : List Cont) :
    UpdateResult × DockerSt × List Eff :=
  let newId := (UpdateChecker.lookupStr st.localImages imageName).getD ""
  let newCont : Cont := { c with imageId := newId, imageRef := imageName }
  let st1 := { st with containers :=
    (st.containers.filter (fun o => o.contId != c.contId)) ++ [newCont] }
  let effs := [Eff.stop c.name, Eff.remove c.name, Eff.create c.name imageName,
    Eff.start c.name]
  let depEffs := (deps.map (fun d =>
    [Eff.stop d.name, Eff.remove d.name, Eff.create d.name d.imageRef,
     Eff.start d.name])).flatten
  (⟨UpdateStatus.success, "Container " ++ c.name ++ " updated successfully to latest image."⟩,
   st1, effs ++ depEffs)

/-- `ContainerUpdater._do_update`.  `portainerOutcome` stands for the
result of `update_via_portainer` when Portainer is configured: `some msg`
is a successful stack redeploy (performed by the external Portainer API,
so the Docker state visible here is unchanged), `none` means the Portainer
path failed or the container is in no stack and the raw Docker path runs. -/
def doUpdate (portainerConfigured : Bool) (portainerOutcome : Option String)
    (floatingTagMode : String) (st : DockerSt) (containerName : String)
    (force : Bool) (newImage : Option String) : UpdateResult × DockerSt × List Eff :=
  let blockedByLabel :=
    match findContainer st containerName with
    | some c => updateActionBlocked c
    | none => false
  if blockedByLabel then
    (⟨UpdateStatus.blocked,
      "Container " ++ containerName ++ " has dockpeek.update.action set, update blocked"⟩,
     st, [])
  else
    match portainerConfigured, portainerOutcome with
    | true, some msg => (⟨UpdateStatus.success, msg⟩, st, [])
    | _, _ =>
      match findContainer st containerName with
      | none => (⟨UpdateStatus.failed, "Container " ++ containerName ++ " not found."⟩, st, [])
      | some container =>
        let deps := dependentContainers st container
        let info := match newImage with
          | some n => some (n, container.imageId)
          | none => getImageInfo floatingTagMode container
        match info with
        | none =>
          (⟨UpdateStatus.failed, "Could not determine image name for the container."⟩, st, [])
        | some (imageName, containerImageId) =>
          match pullImage st imageName with
          | none =>
            (⟨UpdateStatus.failed, "Failed to pull image " ++ imageName⟩, st,
             [Eff.pull imageName])
          | some st1 =>
            if force = false ∧ hasUpdatesB st1 imageName containerImageId = false then
              (⟨UpdateStatus.success,
                "Container " ++ containerName ++ " is already up to date."⟩,
               st1, [Eff.pull imageName])
            else
              let (r, st2, effs) := performUpdate st1 container imageName deps
              (r, st2, Eff.pull imageName :: effs)

/-- `ContainerUpdater.update`: the cross-process file lock, then
`_do_update`. -/
def update (portainerConfigured : Bool) (portainerOutcome : Option String)
    (floatingTagMode : String) (lockAcquired : Bool) (st : DockerSt)
    (containerName : String) (force : Bool) (newImage : Option String) :
    UpdateResult × DockerSt × List Eff :=
  if lockAcquired = false then
    (⟨UpdateStatus.inProgress, "Update already in progress for " ++ containerName ++ "."⟩,
     st, [])
  else doUpdate portainerConfigured portainerOutcome floatingTagMode st containerName
    force newImage

end UpdateManager

/-! ## Embedding of `api_keys.py` — `ApiKeyDB` -/

namespace ApiKeys

/-- One row of the `api_keys` table. -/
structure KeyRow where
  id : Nat
  keyHash : String
  keyPrefix : String
  label : String
  createdAt : Nat
  expiresAt : Nat
  lastUsedAt : Option Nat
  isActive : Bool
deriving DecidableEq, Repr

/-- The `api_keys` table plus its autoincrement counter.  Timestamps are
naturals (the stored ISO strings order exactly as the instants they
encode). -/
structure KeyDB where
  rows : List KeyRow
  nextId : Nat
deriving DecidableEq, Repr

/-- Validation result (`id`, `prefix`, `label`, `expires_at`). -/
structure KeyInfo where
  id : Nat
  keyPrefix : String
  label : String
  expiresAt : Nat
deriving DecidableEq, Repr

/-- `ApiKeyDB.create_key`, with the freshly generated plaintext passed in
and the hash function abstract.  Only `hash plaintext` and the first eight
characters of the plaintext enter the stored row.  `none` models the
`UNIQUE` constraint on `key_hash` rejecting the insert. -/
def createKey (hash : String → String) (db : KeyDB) (plaintext label : String)
    (now expiresInSeconds : Nat) : Option (Nat × KeyDB) :=
  if db.rows.any (fun r => r.keyHash == hash plaintext) then none
  else some (db.nextId,
    ⟨db.rows ++ [⟨db.nextId, hash plaintext, String.mk (plaintext.toList.take 8), label, now,
      now + expiresInSeconds, none, true⟩],
     db.nextId + 1⟩)

/-- `ApiKeyDB.validate_key`: hash the submitted value, look it up, reject
inactive or expired rows, and stamp `last_used_at` on success. -/
def validateKey (hash : String → String) (db : KeyDB) (plaintext : String) (now : Nat) :
    Option KeyInfo × KeyDB :=
  if plaintext = "" then (none, db)
  else
    match db.rows.find? (fun r => r.keyHash == hash plaintext) with
    | none => (none, db)
    | some r =>
      if r.isActive = false then (none, db)
      else if r.expiresAt < now then (none, db)
      else
        (some ⟨r.id, r.keyPrefix, r.label, r.expiresAt⟩,
         { db with rows := db.rows.map (fun x =>
             if x.id = r.id then { x with lastUsedAt := some now } else x) })

/-- `ApiKeyDB.revoke_key`: set `is_active = 0` for the id. -/
def revokeKey (db : KeyDB) (keyId : Nat) : KeyDB :=
  { db with rows := db.rows.map (fun x =>
      if x.id = keyId then { x with isActive := false } else x) }

end ApiKeys

/-! ## Helper lemmas -/

theorem FileBasedCache.lookup_set_self {α : Type} (c : List (String × FileBasedCache.Entry α))
    (k : String) (v : α) (t : Nat) :
    FileBasedCache.lookup (FileBasedCache.set c k v t) k = some ⟨v, t⟩ := by
  induction c with
  | nil => simp [FileBasedCache.set, FileBasedCache.lookup]
  | cons e es ih =>
    by_cases h : e.1 = k
    · simp [FileBasedCache.set, h, FileBasedCache.lookup]
    · simpa [FileBasedCache.set, h, FileBasedCache.lookup, List.find?_cons] using ih

theorem FileBasedCache.get_of_snd_false {α : Type} (c : List (String × FileBasedCache.Entry α))
    (k : String) (now ttl : Nat) (h : (FileBasedCache.get c k now ttl).2 = false) :
    FileBasedCache.get c k now ttl = (none, false) := by
  cases hc : FileBasedCache.lookup c k with
  | none => simp [FileBasedCache.get, hc]
  | some e =>
    by_cases ht : now - e.timestamp < ttl
    · simp [FileBasedCache.get, hc, ht] at h
    · simp [FileBasedCache.get, hc, ht]

theorem VersionParser.compare_master (a b : VerTuple) :
    (VersionParser.compare a b = -1 ↔ VersionParser.keyLt a b) ∧
    (VersionParser.compare a b = 1 ↔ VersionParser.keyLt b a) ∧
    (VersionParser.compare a b = -1 ∨ VersionParser.compare a b = 0 ∨
      VersionParser.compare a b = 1) ∧
    VersionParser.compare a b = -VersionParser.compare b a := by
  have hnum : ∀ x y : VerTuple, x.isDate = y.isDate →
      ((VersionParser.compare x y = -1 ↔ VersionParser.keyLt x y) ∧
       (VersionParser.compare x y = 1 ↔ VersionParser.keyLt y x) ∧
       (VersionParser.compare x y = -1 ∨ VersionParser.compare x y = 0 ∨
         VersionParser.compare x y = 1) ∧
       VersionParser.compare x y = -VersionParser.compare y x) := by
    intro x y hdd
    rcases Nat.lt_trichotomy x.major y.major with h3 | h3 | h3
    · have h3a : ¬(y.major < x.major) := by omega
      have h3b : ¬(y.major = x.major) := by omega
      have h3c : ¬(x.major = y.major) := by omega
      simp [VersionParser.compare, VersionParser.keyLt, VersionParser.numLt,
        VersionParser.numEq, hdd, h3, h3a, h3b, h3c]
    · rcases Nat.lt_trichotomy x.minor y.minor with h4 | h4 | h4
      · have h4a : ¬(y.minor < x.minor) := by omega
        have h4b : ¬(y.minor = x.minor) := by omega
        have h4c : ¬(x.minor = y.minor) := by omega
        simp [VersionParser.compare, VersionParser.keyLt, VersionParser.numLt,
          VersionParser.numEq, hdd, h3, h4, h4a, h4b, h4c]
      · rcases Nat.lt_trichotomy x.patch y.patch with h5 | h5 | h5
        · have h5a : ¬(y.patch < x.patch) := by omega
          have h5b : ¬(y.patch = x.patch) := by omega
          have h5c : ¬(x.patch = y.patch) := by omega
          simp [VersionParser.compare, VersionParser.keyLt, VersionParser.numLt,
            VersionParser.numEq, hdd, h3, h4, h5, h5a, h5b, h5c]
        · rcases Nat.lt_trichotomy x.build y.build with h6 | h6 | h6
          · have h6a : ¬(y.build < x.build) := by omega
            have h6b : ¬(y.build = x.build) := by omega
            have h6c : ¬(x.build = y.build) := by omega
            simp [VersionParser.compare, VersionParser.keyLt, VersionParser.numLt,
              VersionParser.numEq, hdd, h3, h4, h5, h6, h6a, h6b, h6c]
          · by_cases hsa : x.suffix = "" <;> by_cases hsb : y.suffix = "" <;>
              simp [VersionParser.compare, VersionParser.keyLt, VersionParser.numLt,
                VersionParser.numEq, hdd, h3, h4, h5, h6, hsa, hsb]
          · have h6a : ¬(x.build < y.build) := by omega
            have h6b : ¬(y.build = x.build) := by omega
            have h6c : ¬(x.build = y.build) := by omega
            simp [VersionParser.compare, VersionParser.keyLt, VersionParser.numLt,
              VersionParser.numEq, hdd, h3, h4, h5, h6, h6a, h6b, h6c]
        · have h5a : ¬(x.patch < y.patch) := by omega
          have h5b : ¬(y.patch = x.patch) := by omega
          have h5c : ¬(x.patch = y.patch) := by omega
          simp [VersionParser.compare, VersionParser.keyLt, VersionParser.numLt,
            VersionParser.numEq, hdd, h3, h4, h5, h5a, h5b, h5c]
      · have h4a : ¬(x.minor < y.minor) := by omega
        have h4b : ¬(y.minor = x.minor) := by omega
        have h4c : ¬(x.minor = y.minor) := by omega
        simp [VersionParser.compare, VersionParser.keyLt, VersionParser.numLt,
          VersionParser.numEq, hdd, h3, h4, h4a, h4b, h4c]
    · have h3a : ¬(x.major < y.major) := by omega
      have h3b : ¬(y.major = x.major) := by omega
      have h3c : ¬(x.major = y.major) := by omega
      simp [VersionParser.compare, VersionParser.keyLt, VersionParser.numLt,
        VersionParser.numEq, hdd, h3, h3a, h3b, h3c]
  cases hda : a.isDate <;> cases hdb : b.isDate
  · exact hnum a b (by rw [hda, hdb])
  · simp [VersionParser.compare, VersionParser.keyLt, VersionParser.numLt,
      VersionParser.numEq, hda, hdb]
  · simp [VersionParser.compare, VersionParser.keyLt, VersionParser.numLt,
      VersionParser.numEq, hda, hdb]
  · exact hnum a b (by rw [hda, hdb])

theorem VersionParser.keyLt_trans {a b c : VerTuple}
    (h1 : VersionParser.keyLt a b) (h2 : VersionParser.keyLt b c) :
    VersionParser.keyLt a c := by
  unfold VersionParser.keyLt VersionParser.numLt VersionParser.numEq at *
  rcases h1 with ⟨ha1, hb1⟩ | ⟨hab, hrest1⟩ <;> rcases h2 with ⟨hb2, hc2⟩ | ⟨hbc, hrest2⟩
  · rw [hb1] at hb2
    exact absurd hb2 (by simp)
  · exact Or.inl ⟨ha1, hbc.symm.trans hb1⟩
  · exact Or.inl ⟨hab.trans hb2, hc2⟩
  · refine Or.inr ⟨hab.trans hbc, ?_⟩
    rcases hrest1 with hn1 | ⟨he1, hs1a, hs1b⟩ <;> rcases hrest2 with hn2 | ⟨he2, hs2a, hs2b⟩
    · left; omega
    · left; omega
    · left; omega
    · exact absurd hs1b hs2a

theorem NewVersionChecker.listLt_irrefl (l : List Int) :
    NewVersionChecker.listLt l l = false := by
  induction l with
  | nil => rfl
  | cons a xs ih => simp [NewVersionChecker.listLt, ih]

theorem NewVersionChecker.listLt_trans {a b c : List Int}
    (h1 : NewVersionChecker.listLt a b = true)
    (h2 : NewVersionChecker.listLt b c = true) :
    NewVersionChecker.listLt a c = true := by
  induction a generalizing b c with
  | nil =>
    cases c with
    | nil =>
      cases b with
      | nil => simp [NewVersionChecker.listLt] at h1
      | cons y ys => simp [NewVersionChecker.listLt] at h2
    | cons z zs => simp [NewVersionChecker.listLt]
  | cons x xs ih =>
    cases b with
    | nil => simp [NewVersionChecker.listLt] at h1
    | cons y ys =>
      cases c with
      | nil => simp [NewVersionChecker.listLt] at h2
      | cons z zs =>
        simp only [NewVersionChecker.listLt] at h1 h2 ⊢
        split_ifs at h1 h2 ⊢ <;>
          first
            | rfl
            | omega
            | exact ih h1 h2

theorem NewVersionChecker.listLt_conn {a b : List Int}
    (h : NewVersionChecker.listLt b a = false) :
    a = b ∨ NewVersionChecker.listLt a b = true := by
  induction a generalizing b with
  | nil =>
    cases b with
    | nil => exact Or.inl rfl
    | cons y ys => exact Or.inr rfl
  | cons x xs ih =>
    cases b with
    | nil => simp [NewVersionChecker.listLt] at h
    | cons y ys =>
      simp only [NewVersionChecker.listLt] at h ⊢
      split_ifs at h ⊢ <;>
        first
          | exact Or.inr rfl
          | simp at h
          | (rcases ih h with h3 | h3
             · exact Or.inl (by rw [show x = y from by omega, h3])
             · exact Or.inr h3)

theorem NewVersionChecker.minFrom_cons (a b : NewVersionChecker.Candidate)
    (l : List NewVersionChecker.Candidate) :
    NewVersionChecker.minFrom a (b :: l) = NewVersionChecker.minFrom
      (if NewVersionChecker.listLt (NewVersionChecker.candKey b)
        (NewVersionChecker.candKey a) then b else a) l := rfl

theorem NewVersionChecker.minFrom_mem (a : NewVersionChecker.Candidate)
    (l : List NewVersionChecker.Candidate) :
    NewVersionChecker.minFrom a l = a ∨ NewVersionChecker.minFrom a l ∈ l := by
  induction l generalizing a with
  | nil => exact Or.inl rfl
  | cons b xs ih =>
    rw [NewVersionChecker.minFrom_cons]
    by_cases h : NewVersionChecker.listLt (NewVersionChecker.candKey b)
        (NewVersionChecker.candKey a) = true
    · rw [if_pos h]
      rcases ih b with h1 | h1
      · exact Or.inr (by simp [h1])
      · exact Or.inr (by simp [h1])
    · rw [if_neg h]
      rcases ih a with h1 | h1
      · exact Or.inl h1
      · exact Or.inr (by simp [h1])

theorem NewVersionChecker.minFrom_min (a : NewVersionChecker.Candidate)
    (l : List NewVersionChecker.Candidate) :
    ∀ c, (c = a ∨ c ∈ l) →
      NewVersionChecker.listLt (NewVersionChecker.candKey c)
        (NewVersionChecker.candKey (NewVersionChecker.minFrom a l)) = false := by
  induction l generalizing a with
  | nil =>
    intro c hc
    rcases hc with rfl | h
    · exact NewVersionChecker.listLt_irrefl _
    · cases h
  | cons b xs ih =>
    intro c hc
    rw [NewVersionChecker.minFrom_cons]
    by_cases h : NewVersionChecker.listLt (NewVersionChecker.candKey b)
        (NewVersionChecker.candKey a) = true
    · rw [if_pos h]
      rcases hc with rfl | hc
      · by_contra hcon
        simp only [Bool.not_eq_false] at hcon
        have hb := ih b b (Or.inl rfl)
        have htr := NewVersionChecker.listLt_trans h hcon
        rw [htr] at hb
        exact absurd hb (by simp)
      · rcases List.mem_cons.mp hc with rfl | hc
        · exact ih c c (Or.inl rfl)
        · exact ih b c (Or.inr hc)
    · rw [if_neg h]
      rcases hc with rfl | hc
      · exact ih c c (Or.inl rfl)
      · rcases List.mem_cons.mp hc with rfl | hc
        · by_contra hcon
          simp only [Bool.not_eq_false] at hcon
          have ha := ih a a (Or.inl rfl)
          have h' : NewVersionChecker.listLt (NewVersionChecker.candKey c)
              (NewVersionChecker.candKey a) = false := by
            simpa using h
          rcases NewVersionChecker.listLt_conn h' with he | hl
          · rw [he] at ha
            rw [hcon] at ha
            exact absurd ha (by simp)
          · have htr := NewVersionChecker.listLt_trans hl hcon
            rw [htr] at ha
            exact absurd ha (by simp)
        · exact ih a c (Or.inr hc)

theorem NewVersionChecker.filterCandidate_some_iff (cur : VerTuple) (cu cp : Bool)
    (curTag t : String) (c : NewVersionChecker.Candidate) :
    NewVersionChecker.filterCandidate cur cu cp curTag t = some c ↔
      (VersionParser.parse t = some c.ver ∧ c.tag = t ∧
       c.plat = VersionParser.isPlatformSpecific t ∧
       c.unstable = VersionParser.isUnstable t ∧
       VersionParser.compare cur c.ver < 0 ∧
       (VersionParser.isUnstable t = true → cu = true) ∧
       (VersionParser.isPlatformSpecific t = true → cp = true) ∧
       ¬(c.ver.suffix ≠ "" ∧ hasCompoundVersion c.ver.suffix.toList = true) ∧
       NewVersionChecker.countVersionSegments curTag ≤
         NewVersionChecker.countVersionSegments t) := by
  cases hp : VersionParser.parse t with
  | none => simp [NewVersionChecker.filterCandidate, hp]
  | some tv =>
    have hunf : NewVersionChecker.filterCandidate cur cu cp curTag t =
        (if VersionParser.compare cur tv < 0 then
          (if (VersionParser.isUnstable t && !cu) = true then none
           else if (VersionParser.isPlatformSpecific t && !cp) = true then none
           else if tv.suffix ≠ "" ∧ hasCompoundVersion tv.suffix.toList = true then none
           else if NewVersionChecker.countVersionSegments t <
               NewVersionChecker.countVersionSegments curTag then none
           else some ⟨t, tv, VersionParser.isPlatformSpecific t,
             VersionParser.isUnstable t⟩)
         else none) := by
      unfold NewVersionChecker.filterCandidate
      rw [hp]
    rw [hunf]
    constructor
    · intro hsome
      split_ifs at hsome with h1 h2 h3 h4 h5
      injection hsome with hc
      subst hc
      refine ⟨rfl, rfl, rfl, rfl, h1, ?_, ?_, ?_, ?_⟩
      · intro hu
        cases hcu : cu
        · exact absurd (by simp [hu, hcu]) h2
        · rfl
      · intro hpl
        cases hcp : cp
        · exact absurd (by simp [hpl, hcp]) h3
        · rfl
      · exact h4
      · omega
    · rintro ⟨hpv, htag, hplat, hunst, hcmp, himpU, himpP, hsuf, hseg⟩
      injection hpv with hveq
      have hc : c = ⟨t, tv, VersionParser.isPlatformSpecific t,
          VersionParser.isUnstable t⟩ := by
        cases c
        simp_all
      subst hc
      have hcu' : ¬((VersionParser.isUnstable t && !cu) = true) := by
        intro hcond
        rw [Bool.and_eq_true, Bool.not_eq_true'] at hcond
        rw [himpU hcond.1] at hcond
        exact absurd hcond.2 (by simp)
      have hcp' : ¬((VersionParser.isPlatformSpecific t && !cp) = true) := by
        intro hcond
        rw [Bool.and_eq_true, Bool.not_eq_true'] at hcond
        rw [himpP hcond.1] at hcond
        exact absurd hcond.2 (by simp)
      have hcs : ¬(tv.suffix ≠ "" ∧ hasCompoundVersion tv.suffix.toList = true) :=
        hsuf
      have hcg : ¬(NewVersionChecker.countVersionSegments t <
          NewVersionChecker.countVersionSegments curTag) := by omega
      rw [if_pos (show VersionParser.compare cur tv < 0 from hcmp),
        if_neg hcu', if_neg hcp', if_neg hcs, if_neg hcg]

theorem NewVersionChecker.check_head (curTag : String) (tags : List String)
    (rtag : String) (rver : VerTuple)
    (h : NewVersionChecker.checkForNewerVersion curTag tags = some (rtag, rver)) :
    ∃ cur, VersionParser.parse curTag = some cur ∧
    ∃ m ∈ NewVersionChecker.survivors cur (VersionParser.isUnstable curTag)
        (VersionParser.isPlatformSpecific curTag) curTag tags,
      m.tag = rtag ∧ m.ver = rver ∧
      ∀ d ∈ NewVersionChecker.survivors cur (VersionParser.isUnstable curTag)
          (VersionParser.isPlatformSpecific curTag) curTag tags,
        NewVersionChecker.listLt (NewVersionChecker.candKey d)
          (NewVersionChecker.candKey m) = false := by
  unfold NewVersionChecker.checkForNewerVersion at h
  cases hp : VersionParser.parse curTag with
  | none =>
    rw [hp] at h
    exact absurd h (by simp)
  | some cur =>
    rw [hp] at h
    dsimp only at h
    refine ⟨cur, rfl, ?_⟩
    cases hs : NewVersionChecker.survivors cur (VersionParser.isUnstable curTag)
        (VersionParser.isPlatformSpecific curTag) curTag tags with
    | nil =>
      rw [hs] at h
      exact absurd h (by simp)
    | cons c cs =>
      rw [hs] at h
      simp only at h
      injection h with hpair
      have htag : (NewVersionChecker.minFrom c cs).tag = rtag := congrArg Prod.fst hpair
      have hver : (NewVersionChecker.minFrom c cs).ver = rver := congrArg Prod.snd hpair
      refine ⟨NewVersionChecker.minFrom c cs, ?_, htag, hver, ?_⟩
      · rcases NewVersionChecker.minFrom_mem c cs with hm | hm
        · simp [hm]
        · simp [hm]
      · intro d hd
        rcases List.mem_cons.mp hd with rfl | hd
        · exact NewVersionChecker.minFrom_min d cs d (Or.inl rfl)
        · exact NewVersionChecker.minFrom_min c cs d (Or.inr hd)

/-! ## Claim theorems -/

/-- C3: shared TTL cache law.  After `set k v` at time `t0`, a `get k` at
time `t1` returns `(v, true)` while the elapsed time is strictly below the
TTL and `(none, false)` once it reaches the TTL; a second `set k v'` at
time `t2` overwrites the stored value and resets the entry's timestamp to
`t2`. -/
theorem file_cache_ttl_law {α : Type} (c : List (String × FileBasedCache.Entry α))
    (k : String) (v : α) (t0 t1 ttl : Nat) :
    (t1 - t0 < ttl →
      FileBasedCache.get (FileBasedCache.set c k v t0) k t1 ttl = (some v, true)) ∧
    (ttl ≤ t1 - t0 →
      FileBasedCache.get (FileBasedCache.set c k v t0) k t1 ttl = (none, false)) ∧
    (∀ (v' : α) (t2 : Nat),
      FileBasedCache.lookup (FileBasedCache.set (FileBasedCache.set c k v t0) k v' t2) k
        = some ⟨v', t2⟩) := by
  refine ⟨fun h => ?_, fun h => ?_, fun v' t2 => ?_⟩
  · simp [FileBasedCache.get, FileBasedCache.lookup_set_self, h]
  · simp [FileBasedCache.get, FileBasedCache.lookup_set_self]
    omega
  · exact FileBasedCache.lookup_set_self _ k v' t2

/-- Witness for C3 at a concrete instance. -/
theorem file_cache_ttl_law_witness :
    (5 - 0 < 10 ∧
      FileBasedCache.get (FileBasedCache.set ([] : List (String × FileBasedCache.Entry Nat)) "k" 7 0) "k" 5 10
        = (some 7, true)) ∧
    (10 ≤ 12 - 0 ∧
      FileBasedCache.get (FileBasedCache.set ([] : List (String × FileBasedCache.Entry Nat)) "k" 7 0) "k" 12 10
        = (none, false)) :=
  ⟨⟨by decide, (file_cache_ttl_law [] "k" 7 0 5 10).1 (by decide)⟩,
   ⟨by decide, (file_cache_ttl_law [] "k" 7 0 12 10).2.1 (by decide)⟩⟩

/-- C4: for every scan result, `summary.total` is the sum of the
per-severity counts, and serializing then deserializing preserves the
summary (hence the summation identity). -/
theorem scan_result_severity_roundtrip (r : Trivy.ScanResult) :
    r.summary.total = r.summary.critical + r.summary.high + r.summary.medium +
      r.summary.low + r.summary.unknown ∧
    (Trivy.deserializeScanResult (Trivy.serializeScanResult r)).summary = r.summary ∧
    (Trivy.deserializeScanResult (Trivy.serializeScanResult r)).summary.total =
      r.summary.critical + r.summary.high + r.summary.medium +
        r.summary.low + r.summary.unknown := by
  obtain ⟨img, dig, ts, dur, vulns, ⟨cr, hi, me, lo, un⟩, err⟩ := r
  refine ⟨rfl, ?_, rfl⟩
  simp [Trivy.serializeScanResult, Trivy.deserializeScanResult,
    Trivy.VulnerabilitySummary.toDict]

/-- C5: fingerprint novelty.  Starting from a table with no row for the
pair, two successive `record_fingerprint` calls for the same
`(digest, fingerprint)` leave exactly one matching row, and its
`first_seen_at` is the first call's timestamp. -/
theorem fingerprint_novelty (db : List ScanHistory.FpRow)
    (digest fp cve sev cve2 sev2 : String) (t1 t2 : Nat)
    (hfp : fp ≠ "")
    (hnew : ∀ r ∈ db, ¬(r.imageDigest = digest ∧ r.fingerprint = fp)) :
    ScanHistory.recordFingerprint true
        (ScanHistory.recordFingerprint true db digest fp cve sev t1)
        digest fp cve2 sev2 t2
      = db ++ [⟨digest, fp, cve, sev, t1⟩] ∧
    (ScanHistory.recordFingerprint true
        (ScanHistory.recordFingerprint true db digest fp cve sev t1)
        digest fp cve2 sev2 t2).filter
        (fun r => r.imageDigest == digest && r.fingerprint == fp)
      = [⟨digest, fp, cve, sev, t1⟩] := by
  have hany : db.any (fun r => r.imageDigest == digest && r.fingerprint == fp) = false := by
    simp only [List.any_eq_false, Bool.and_eq_true, beq_iff_eq]
    intro r hr
    intro hcontra
    exact hnew r hr ⟨hcontra.1, hcontra.2⟩
  have h1 : ScanHistory.recordFingerprint true db digest fp cve sev t1
      = db ++ [⟨digest, fp, cve, sev, t1⟩] := by
    simp [ScanHistory.recordFingerprint, hfp, hany]
  have h2 : ScanHistory.recordFingerprint true (db ++ [⟨digest, fp, cve, sev, t1⟩])
      digest fp cve2 sev2 t2 = db ++ [⟨digest, fp, cve, sev, t1⟩] := by
    simp [ScanHistory.recordFingerprint, hfp]
  rw [h1, h2]
  refine ⟨rfl, ?_⟩
  rw [List.filter_append]
  have hdb : db.filter (fun r => r.imageDigest == digest && r.fingerprint == fp) = [] := by
    rw [List.filter_eq_nil_iff]
    intro r hr
    simp only [Bool.and_eq_true, beq_iff_eq, not_and]
    intro ha hb
    exact hnew r hr ⟨ha, hb⟩
  rw [hdb]
  simp

/-- Witness for C5 at a concrete instance. -/
theorem fingerprint_novelty_witness :
    ScanHistory.recordFingerprint true
        (ScanHistory.recordFingerprint true [] "sha256:abc" "fp1" "CVE-1" "HIGH" 100)
        "sha256:abc" "fp1" "CVE-2" "LOW" 200
      = [⟨"sha256:abc", "fp1", "CVE-1", "HIGH", 100⟩] :=
  (fingerprint_novelty [] "sha256:abc" "fp1" "CVE-1" "HIGH" "CVE-2" "LOW" 100 200
    (by decide) (by simp)).1

/-- C6 counterexample: with the two history rows holding totals `[10, 8]`
newest first (the newer scan has the larger total), `calculate_trend`
returns `degrading`, not `improving` as the claim's example states. -/
theorem trend_example_counterexample :
    (ScanHistory.calculateTrend true
      [⟨"d", 2, 0, 0, 10, none⟩, ⟨"d", 1, 0, 0, 8, none⟩] "d").direction = "degrading" ∧
    ¬((ScanHistory.calculateTrend true
      [⟨"d", 2, 0, 0, 10, none⟩, ⟨"d", 1, 0, 0, 8, none⟩] "d").direction = "improving") := by
  decide

/-- C6 (amended): `calculate_trend` compares the two most recent rows and
returns `improving` when the newest total is smaller, `degrading` when it
is larger, `stable` when equal, and `unknown` with fewer than two rows; so
totals `[10, 8]` newest first give `degrading`, `[10, 12]` give
`improving`, `[10, 10]` give `stable`, and a single row gives `unknown`. -/
theorem calculate_trend_spec :
    (∀ (db : List ScanHistory.ScanRow) (digest : String)
        (cur prev : ScanHistory.ScanRow) (rest : List ScanHistory.ScanRow),
        ScanHistory.recentScans db digest = cur :: prev :: rest →
        (ScanHistory.calculateTrend true db digest).direction =
          (if cur.totalCount < prev.totalCount then "improving"
           else if prev.totalCount < cur.totalCount then "degrading" else "stable")) ∧
    (∀ (db : List ScanHistory.ScanRow) (digest : String),
        (ScanHistory.recentScans db digest).length < 2 →
        (ScanHistory.calculateTrend true db digest).direction = "unknown") ∧
    (ScanHistory.calculateTrend true
        [⟨"d", 2, 0, 0, 10, none⟩, ⟨"d", 1, 0, 0, 8, none⟩] "d").direction = "degrading" ∧
    (ScanHistory.calculateTrend true
        [⟨"d", 2, 0, 0, 10, none⟩, ⟨"d", 1, 0, 0, 12, none⟩] "d").direction = "improving" ∧
    (ScanHistory.calculateTrend true
        [⟨"d", 2, 0, 0, 10, none⟩, ⟨"d", 1, 0, 0, 10, none⟩] "d").direction = "stable" ∧
    (ScanHistory.calculateTrend true [(⟨"d", 1, 0, 0, 10, none⟩ : ScanHistory.ScanRow)]
        "d").direction = "unknown" := by
  refine ⟨?_, ?_, by decide, by decide, by decide, by decide⟩
  · intro db digest cur prev rest h
    simp only [ScanHistory.calculateTrend, h]
    split_ifs <;> first | rfl | omega | simp_all
  · intro db digest h
    rcases hr : ScanHistory.recentScans db digest with _ | ⟨r, _ | ⟨r2, rest⟩⟩
    · simp [ScanHistory.calculateTrend, hr]
    · simp [ScanHistory.calculateTrend, hr]
    · rw [hr] at h
      simp only [List.length_cons] at h
      exact absurd h (by omega)

/-- Witness for C6 at a concrete instance. -/
theorem calculate_trend_spec_witness :
    (ScanHistory.calculateTrend true
        [⟨"d", 2, 0, 0, 10, none⟩, ⟨"d", 1, 0, 0, 12, none⟩] "d").direction =
      (if (10 : Nat) < 12 then "improving"
       else if (12 : Nat) < 10 then "degrading" else "stable") :=
  calculate_trend_spec.1 [⟨"d", 2, 0, 0, 10, none⟩, ⟨"d", 1, 0, 0, 12, none⟩] "d"
    ⟨"d", 2, 0, 0, 10, none⟩ ⟨"d", 1, 0, 0, 12, none⟩ [] (by decide)

/-- C7 counterexample: when the state attributes raise after the status was
read (a non-timeout exception) the generic handler re-reads and returns the
raw container status, so a running container with failing attributes yields
`running`, not `error` as the claim's final clause states. -/
theorem status_error_counterexample :
    DockerUtils.getStatusWithExitCode ⟨"running", none, none, false, false, true⟩
      = ("running", none) ∧
    ¬((DockerUtils.getStatusWithExitCode ⟨"running", none, none, false, false, true⟩).1
      = "error") := by
  decide

/-- C7 (amended): the status mapping is bit-exact as claimed for all
observable states — `running`/`healthy`/`unhealthy` (with exit code)/
`starting`, `exited`/`dead` verbatim with exit code, `paused`/
`restarting`/`removing`/`created` verbatim without it, and `timeout` when
the bounded wait expires — but on any other exception the extractor falls
back to the raw container status when it is still readable and reports
`error` only when reading the status fails as well. -/
theorem get_status_with_exit_code_spec :
    (∀ o : DockerUtils.ContainerObs, o.timesOut = false → o.statusFails = false →
      o.attrsFail = false → o.status = "running" → o.healthStatus = none →
      DockerUtils.getStatusWithExitCode o = ("running", none)) ∧
    (∀ o : DockerUtils.ContainerObs, o.timesOut = false → o.statusFails = false →
      o.attrsFail = false → o.status = "running" → o.healthStatus = some "healthy" →
      DockerUtils.getStatusWithExitCode o = ("healthy", none)) ∧
    (∀ o : DockerUtils.ContainerObs, o.timesOut = false → o.statusFails = false →
      o.attrsFail = false → o.status = "running" → o.healthStatus = some "unhealthy" →
      DockerUtils.getStatusWithExitCode o = ("unhealthy", o.exitCode)) ∧
    (∀ o : DockerUtils.ContainerObs, o.timesOut = false → o.statusFails = false →
      o.attrsFail = false → o.status = "running" → o.healthStatus = some "starting" →
      DockerUtils.getStatusWithExitCode o = ("starting", none)) ∧
    (∀ o : DockerUtils.ContainerObs, o.timesOut = false → o.statusFails = false →
      o.attrsFail = false → (o.status = "exited" ∨ o.status = "dead") →
      DockerUtils.getStatusWithExitCode o = (o.status, o.exitCode)) ∧
    (∀ o : DockerUtils.ContainerObs, o.timesOut = false → o.statusFails = false →
      o.attrsFail = false →
      (o.status = "paused" ∨ o.status = "restarting" ∨ o.status = "removing" ∨
        o.status = "created") →
      DockerUtils.getStatusWithExitCode o = (o.status, none)) ∧
    (∀ o : DockerUtils.ContainerObs, o.timesOut = true →
      DockerUtils.getStatusWithExitCode o = ("timeout", none)) ∧
    (∀ o : DockerUtils.ContainerObs, o.timesOut = false → o.statusFails = true →
      DockerUtils.getStatusWithExitCode o = ("error", none)) ∧
    (∀ o : DockerUtils.ContainerObs, o.timesOut = false → o.statusFails = false →
      o.attrsFail = true →
      DockerUtils.getStatusWithExitCode o = (o.status, none)) := by
  refine ⟨?_, ?_, ?_, ?_, ?_, ?_, ?_, ?_, ?_⟩
  · intro o h1 h2 h3 h4 h5
    simp [DockerUtils.getStatusWithExitCode, h1, h2, h3, h4, h5]
  · intro o h1 h2 h3 h4 h5
    simp [DockerUtils.getStatusWithExitCode, h1, h2, h3, h4, h5]
  · intro o h1 h2 h3 h4 h5
    simp [DockerUtils.getStatusWithExitCode, h1, h2, h3, h4, h5]
  · intro o h1 h2 h3 h4 h5
    simp [DockerUtils.getStatusWithExitCode, h1, h2, h3, h4, h5]
  · intro o h1 h2 h3 h4
    rcases h4 with h4 | h4 <;> simp [DockerUtils.getStatusWithExitCode, h1, h2, h3, h4]
  · intro o h1 h2 h3 h4
    rcases h4 with h4 | h4 | h4 | h4 <;>
      simp [DockerUtils.getStatusWithExitCode, h1, h2, h3, h4]
  · intro o h1
    simp [DockerUtils.getStatusWithExitCode, h1]
  · intro o h1 h2
    simp [DockerUtils.getStatusWithExitCode, h1, h2]
  · intro o h1 h2 h3
    simp [DockerUtils.getStatusWithExitCode, h1, h2, h3]

/-- Witness for C7 at a concrete instance. -/
theorem get_status_with_exit_code_spec_witness :
    DockerUtils.getStatusWithExitCode ⟨"running", some "unhealthy", some 137, false, false, false⟩
      = ("unhealthy", some 137) :=
  get_status_with_exit_code_spec.2.2.1
    ⟨"running", some "unhealthy", some 137, false, false, false⟩ rfl rfl rfl rfl rfl

/-- C10: cancellation observed after the pull completes makes
`check_image_updates` return `false` and store that `false` in the
120-second update-decision cache under the `host:container:image` key, so
any later check of the same container within the TTL answers `false` from
the cache without pulling, whatever the cancellation token then reads;
cancellation observed before the pull returns `false` without touching the
cache. -/
theorem cancellation_cache_negative
    (mode : String) (registry : List (String × String))
    (cache : List (String × FileBasedCache.Entry Bool)) (now : Nat)
    (server cont imageId imageRef newId : String)
    (hId : imageId ≠ "") (hRef : imageRef ≠ "")
    (hmiss : (FileBasedCache.get cache
      (UpdateChecker.getCacheKey server cont imageRef) now 120).2 = false)
    (hpull : UpdateChecker.lookupStr registry
      ((UpdateChecker.parseImageName imageRef).1 ++ ":" ++
        UpdateChecker.resolveFloatingTag mode (UpdateChecker.parseImageName imageRef).2)
      = some newId) :
    (UpdateChecker.checkImageUpdates mode registry cache 120 now
        false false true server cont imageId imageRef false
      = ⟨false, FileBasedCache.set cache
          (UpdateChecker.getCacheKey server cont imageRef) false now, true⟩) ∧
    (∀ (now2 : Nat) (c2 c3 pullTimesOut : Bool) (registry2 : List (String × String))
        (mode2 : String),
      now2 - now < 120 →
      UpdateChecker.checkImageUpdates mode2 registry2
          (FileBasedCache.set cache (UpdateChecker.getCacheKey server cont imageRef)
            false now)
          120 now2 false c2 c3 server cont imageId imageRef pullTimesOut
        = ⟨false, FileBasedCache.set cache
            (UpdateChecker.getCacheKey server cont imageRef) false now, false⟩) ∧
    (∀ c3 : Bool,
      UpdateChecker.checkImageUpdates mode registry cache 120 now
          false true c3 server cont imageId imageRef false
        = ⟨false, cache, false⟩) := by
  have hm := FileBasedCache.get_of_snd_false cache
    (UpdateChecker.getCacheKey server cont imageRef) now 120 hmiss
  refine ⟨?_, ?_, ?_⟩
  · simp [UpdateChecker.checkImageUpdates, hId, hRef, hm, hpull]
  · intro now2 c2 c3 pullTimesOut registry2 mode2 httl
    have hhit : FileBasedCache.get
        (FileBasedCache.set cache (UpdateChecker.getCacheKey server cont imageRef) false now)
        (UpdateChecker.getCacheKey server cont imageRef) now2 120 = (some false, true) := by
      simp [FileBasedCache.get, FileBasedCache.lookup_set_self, httl]
    simp [UpdateChecker.checkImageUpdates, hId, hRef, hhit]
  · intro c3
    simp [UpdateChecker.checkImageUpdates, hId, hRef, hm]

/-- Witness for C10 at a concrete instance. -/
theorem cancellation_cache_negative_witness :
    UpdateChecker.checkImageUpdates "disabled" [("img:latest", "sha1")] [] 120 0
        false false true "srv" "web" "sha0" "img" false
      = ⟨false, FileBasedCache.set [] (UpdateChecker.getCacheKey "srv" "web" "img") false 0,
          true⟩ :=
  (cancellation_cache_negative "disabled" [("img:latest", "sha1")] [] 0 "srv" "web"
    "sha0" "img" "sha1" (by decide) (by decide) (by decide) (by decide)).1

theorem find_append_of_no_match {α : Type} (l1 l2 : List α) (p : α → Bool)
    (h : ∀ x ∈ l1, p x = false) : List.find? p (l1 ++ l2) = List.find? p l2 := by
  induction l1 with
  | nil => simp
  | cons a l ih =>
    have ha := h a (by simp)
    simp only [List.cons_append, List.find?, ha]
    exact ih (fun x hx => h x (by simp [hx]))

/-- C9: API token lifecycle.  A freshly created key validates (returning
its id, prefix, label and expiry, and stamping `last_used_at`); after
`revoke_key` the same plaintext no longer validates; after the expiry
instant has passed it no longer validates; and the stored row holds only
the hash and the eight-character prefix of the plaintext, so creation
yields identical stored state for any plaintext with the same hash and
prefix. -/
theorem api_key_lifecycle (hash : String → String) (db : ApiKeys.KeyDB)
    (p label : String) (t ttl : Nat)
    (hp : p ≠ "")
    (hfresh : ∀ r ∈ db.rows, ¬(r.keyHash = hash p)) :
    ∃ db1 : ApiKeys.KeyDB,
      ApiKeys.createKey hash db p label t ttl = some (db.nextId, db1) ∧
      db1.rows = db.rows ++
        [⟨db.nextId, hash p, String.mk (p.toList.take 8), label, t, t + ttl, none, true⟩] ∧
      (∀ now, now ≤ t + ttl →
        (ApiKeys.validateKey hash db1 p now).1
          = some ⟨db.nextId, String.mk (p.toList.take 8), label, t + ttl⟩) ∧
      (∀ now, now ≤ t + ttl →
        ∃ r ∈ (ApiKeys.validateKey hash db1 p now).2.rows,
          r.id = db.nextId ∧ r.lastUsedAt = some now) ∧
      (∀ now, (ApiKeys.validateKey hash (ApiKeys.revokeKey db1 db.nextId) p now).1 = none) ∧
      (∀ now, t + ttl < now → (ApiKeys.validateKey hash db1 p now).1 = none) ∧
      (∀ q, hash q = hash p → String.mk (q.toList.take 8) = String.mk (p.toList.take 8) →
        ApiKeys.createKey hash db q label t ttl = ApiKeys.createKey hash db p label t ttl) := by
  have hany : db.rows.any (fun r => r.keyHash == hash p) = false := by
    simp only [List.any_eq_false, beq_iff_eq]
    exact hfresh
  have hrowsfail : ∀ x ∈ db.rows,
      ((fun r : ApiKeys.KeyRow => r.keyHash == hash p) x) = false := by
    intro x hx
    simpa using hfresh x hx
  have hfind : List.find? (fun r => r.keyHash == hash p)
      (db.rows ++
        [⟨db.nextId, hash p, String.mk (p.toList.take 8), label, t, t + ttl, none, true⟩])
      = some ⟨db.nextId, hash p, String.mk (p.toList.take 8), label, t, t + ttl, none,
          true⟩ := by
    rw [find_append_of_no_match _ _ _ hrowsfail]
    simp [List.find?]
  refine ⟨⟨db.rows ++
      [⟨db.nextId, hash p, String.mk (p.toList.take 8), label, t, t + ttl, none, true⟩],
    db.nextId + 1⟩, ?_, rfl, ?_, ?_, ?_, ?_, ?_⟩
  · simp [ApiKeys.createKey, hany]
  · intro now hnow
    simp only [ApiKeys.validateKey, if_neg hp]
    rw [hfind]
    dsimp only
    rw [if_neg (by simp : ¬(true = false)), if_neg (by omega : ¬(t + ttl < now))]
  · intro now hnow
    simp only [ApiKeys.validateKey, if_neg hp]
    rw [hfind]
    dsimp only
    rw [if_neg (by simp : ¬(true = false)), if_neg (by omega : ¬(t + ttl < now))]
    refine ⟨⟨db.nextId, hash p, String.mk (p.toList.take 8), label, t, t + ttl, some now,
      true⟩, ?_, rfl, rfl⟩
    have hmem : (⟨db.nextId, hash p, String.mk (p.toList.take 8), label, t, t + ttl, none,
        true⟩ : ApiKeys.KeyRow) ∈ db.rows ++
        [⟨db.nextId, hash p, String.mk (p.toList.take 8), label, t, t + ttl, none, true⟩] := by
      simp
    dsimp only
    refine List.mem_map.mpr ⟨⟨db.nextId, hash p, String.mk (p.toList.take 8), label, t,
      t + ttl, none, true⟩, hmem, ?_⟩
    simp
  · intro now
    have hgkeep : ∀ x : ApiKeys.KeyRow,
        ((if x.id = db.nextId then { x with isActive := false } else x) :
          ApiKeys.KeyRow).keyHash = x.keyHash := by
      intro x
      by_cases hx : x.id = db.nextId <;> simp [hx]
    have hfind2 : List.find? (fun r : ApiKeys.KeyRow => r.keyHash == hash p)
        ((db.rows ++
          [(⟨db.nextId, hash p, String.mk (p.toList.take 8), label, t, t + ttl, none,
            true⟩ : ApiKeys.KeyRow)]).map
          (fun x : ApiKeys.KeyRow =>
            if x.id = db.nextId then { x with isActive := false } else x))
        = some ⟨db.nextId, hash p, String.mk (p.toList.take 8), label, t, t + ttl, none,
            false⟩ := by
      rw [List.map_append, find_append_of_no_match]
      · simp [List.find?]
      · intro x hx
        obtain ⟨y, hy, rfl⟩ := List.mem_map.mp hx
        show (((if y.id = db.nextId then { y with isActive := false } else y) :
          ApiKeys.KeyRow).keyHash == hash p) = false
        rw [hgkeep y]
        simpa using hfresh y hy
    simp only [ApiKeys.validateKey, ApiKeys.revokeKey, if_neg hp]
    rw [hfind2]
    simp
  · intro now hnow
    simp only [ApiKeys.validateKey, if_neg hp]
    rw [hfind]
    dsimp only
    rw [if_neg (by simp : ¬(true = false)), if_pos (by omega : t + ttl < now)]
  · intro q hq hq8
    have hq8' : List.take 8 q.data = List.take 8 p.data := congrArg String.data hq8
    simp [ApiKeys.createKey, hq, hq8']

/-- Witness for C9 at a concrete instance. -/
theorem api_key_lifecycle_witness :
    ∃ db1 : ApiKeys.KeyDB,
      ApiKeys.createKey (fun s => "H" ++ s) ⟨[], 1⟩ "dpk_secret" "ci" 100 3600
        = some (1, db1) ∧
      db1.rows = [⟨1, "Hdpk_secret", "dpk_secr", "ci", 100, 3700, none, true⟩] ∧
      (ApiKeys.validateKey (fun s => "H" ++ s) db1 "dpk_secret" 200).1
        = some ⟨1, "dpk_secr", "ci", 3700⟩ ∧
      (ApiKeys.validateKey (fun s => "H" ++ s)
        (ApiKeys.revokeKey db1 1) "dpk_secret" 200).1 = none ∧
      (ApiKeys.validateKey (fun s => "H" ++ s) db1 "dpk_secret" 5000).1 = none := by
  obtain ⟨db1, h1, h2, h3, h4, h5, h6, h7⟩ :=
    api_key_lifecycle (fun s => "H" ++ s) ⟨[], 1⟩ "dpk_secret" "ci" 100 3600
      (by decide) (by simp)
  refine ⟨db1, h1, ?_, ?_, h5 200, h6 5000 (by omega)⟩
  · rw [h2]
    decide
  · rw [h3 200 (by omega)]
    decide

theorem UpdateChecker.lookupStr_setAssoc_self (m : List (String × String)) (k v : String) :
    UpdateChecker.lookupStr (UpdateChecker.setAssoc m k v) k = some v := by
  induction m with
  | nil => simp [UpdateChecker.setAssoc, UpdateChecker.lookupStr]
  | cons e es ih =>
    by_cases h : e.1 = k
    · simp [UpdateChecker.setAssoc, h, UpdateChecker.lookupStr]
    · simpa [UpdateChecker.setAssoc, h, UpdateChecker.lookupStr, List.find?_cons] using ih

/-- C8: update idempotence.  Without `force`, when the freshly pulled image
resolves to the id the container already runs (and no orchestration label
or Portainer path intervenes), `update` returns success with the
"already up to date" message, the only side effect is the pull itself (no
stop, remove, create or start of the container or its dependents), and the
container list is unchanged. -/
theorem update_idempotent (mode : String) (st : UpdateManager.DockerSt)
    (name : String) (c : UpdateManager.Cont) (img : String)
    (hfind : UpdateManager.findContainer st name = some c)
    (hlabel : UpdateManager.updateActionBlocked c = false)
    (hinfo : UpdateManager.getImageInfo mode c = some (img, c.imageId))
    (hreg : UpdateChecker.lookupStr st.registry img = some c.imageId) :
    UpdateManager.update false none mode true st name false none =
      (⟨UpdateManager.UpdateStatus.success,
        "Container " ++ name ++ " is already up to date."⟩,
       { st with localImages := UpdateChecker.setAssoc st.localImages img c.imageId },
       [UpdateManager.Eff.pull img]) ∧
    ({ st with localImages := UpdateChecker.setAssoc st.localImages img c.imageId } :
      UpdateManager.DockerSt).containers = st.containers := by
  have hpull : UpdateManager.pullImage st img = some
      { st with localImages := UpdateChecker.setAssoc st.localImages img c.imageId } := by
    simp [UpdateManager.pullImage, hreg]
  have hup : UpdateManager.hasUpdatesB
      { st with localImages := UpdateChecker.setAssoc st.localImages img c.imageId }
      img c.imageId = false := by
    simp [UpdateManager.hasUpdatesB, UpdateChecker.lookupStr_setAssoc_self]
  refine ⟨?_, rfl⟩
  simp only [UpdateManager.update, UpdateManager.doUpdate, hfind, hlabel, hinfo, hpull, hup]
  simp

/-- Witness for C8 at a concrete instance. -/
theorem update_idempotent_witness :
    UpdateManager.update false none "disabled" true
        ⟨[⟨"web", "cid1", "sha1", "nginx:1.25", [], "bridge"⟩],
         [("nginx:1.25", "sha1")], [("nginx:1.25", "sha1")]⟩
        "web" false none =
      (⟨UpdateManager.UpdateStatus.success, "Container web is already up to date."⟩,
       ⟨[⟨"web", "cid1", "sha1", "nginx:1.25", [], "bridge"⟩],
        [("nginx:1.25", "sha1")], [("nginx:1.25", "sha1")]⟩,
       [UpdateManager.Eff.pull "nginx:1.25"]) := by
  have h := (update_idempotent "disabled"
    ⟨[⟨"web", "cid1", "sha1", "nginx:1.25", [], "bridge"⟩],
     [("nginx:1.25", "sha1")], [("nginx:1.25", "sha1")]⟩
    "web" ⟨"web", "cid1", "sha1", "nginx:1.25", [], "bridge"⟩ "nginx:1.25"
    (by decide) (by decide) (by decide) (by decide)).1
  rw [h]
  decide

/-- C2: `VersionParser.compare` is a total order on parsed tuples in the
comparator sense: antisymmetric (`compare a b = -compare b a`), total
(always `-1`, `0` or `1`), and transitive in its strict part; any semantic
tuple compares strictly newer than any date-based tuple regardless of
magnitudes; tuples of the same kind compare positionally across major,
minor, patch and build; and with equal numerics a tuple with no suffix
outranks one with a suffix (`1.0.0 > 1.0.0-beta`). -/
theorem version_compare_total_order :
    (∀ a b : VerTuple, VersionParser.compare a b = -VersionParser.compare b a) ∧
    (∀ a b : VerTuple, VersionParser.compare a b = -1 ∨ VersionParser.compare a b = 0 ∨
      VersionParser.compare a b = 1) ∧
    (∀ a b c : VerTuple, VersionParser.compare a b < 0 → VersionParser.compare b c < 0 →
      VersionParser.compare a c < 0) ∧
    (∀ a b : VerTuple, a.isDate = false → b.isDate = true →
      VersionParser.compare a b = 1) ∧
    (∀ a b : VerTuple, a.isDate = b.isDate → VersionParser.numLt a b →
      VersionParser.compare a b = -1) ∧
    (∀ a b : VerTuple, a.isDate = b.isDate → VersionParser.numEq a b →
      a.suffix = "" → b.suffix ≠ "" → VersionParser.compare a b = 1) ∧
    VersionParser.compare ⟨false, 1, 0, 0, 0, ""⟩ ⟨false, 1, 0, 0, 0, "beta"⟩ = 1 := by
  refine ⟨?_, ?_, ?_, ?_, ?_, ?_, by decide⟩
  · intro a b
    exact (VersionParser.compare_master a b).2.2.2
  · intro a b
    exact (VersionParser.compare_master a b).2.2.1
  · intro a b c h1 h2
    have e1 : VersionParser.compare a b = -1 := by
      rcases (VersionParser.compare_master a b).2.2.1 with h | h | h <;> omega
    have e2 : VersionParser.compare b c = -1 := by
      rcases (VersionParser.compare_master b c).2.2.1 with h | h | h <;> omega
    have k3 := VersionParser.keyLt_trans ((VersionParser.compare_master a b).1.mp e1)
      ((VersionParser.compare_master b c).1.mp e2)
    have e3 := (VersionParser.compare_master a c).1.mpr k3
    omega
  · intro a b ha hb
    exact (VersionParser.compare_master a b).2.1.mpr (Or.inl ⟨hb, ha⟩)
  · intro a b hdd hn
    exact (VersionParser.compare_master a b).1.mpr (Or.inr ⟨hdd, Or.inl hn⟩)
  · intro a b hdd he hsa hsb
    exact (VersionParser.compare_master a b).2.1.mpr
      (Or.inr ⟨hdd.symm,
        Or.inr ⟨⟨he.1.symm, he.2.1.symm, he.2.2.1.symm, he.2.2.2.symm⟩, hsb, hsa⟩⟩)

/-- Witness for C2 at a concrete instance. -/
theorem version_compare_total_order_witness :
    VersionParser.compare ⟨false, 2, 0, 0, 0, ""⟩ ⟨true, 2021, 12, 16, 0, ""⟩ = 1 ∧
    VersionParser.compare ⟨false, 1, 2, 3, 0, ""⟩ ⟨false, 1, 2, 4, 0, ""⟩ = -1 ∧
    VersionParser.compare ⟨false, 1, 0, 0, 0, ""⟩ ⟨false, 1, 0, 0, 0, "beta"⟩ = 1 :=
  ⟨version_compare_total_order.2.2.2.1 ⟨false, 2, 0, 0, 0, ""⟩ ⟨true, 2021, 12, 16, 0, ""⟩
      rfl rfl,
   version_compare_total_order.2.2.2.2.1 ⟨false, 1, 2, 3, 0, ""⟩ ⟨false, 1, 2, 4, 0, ""⟩
      rfl (by unfold VersionParser.numLt; decide),
   version_compare_total_order.2.2.2.2.2.2⟩

/-- C1: newer-version selection.  The filtering loop keeps a tag exactly
when it parses strictly newer than the current tuple, is not unstable
unless the current tag is, is not platform-specific unless the current tag
is, has no compound version (`\d+\.\d+\.\d+`) embedded in its suffix, and
has at least as many dotted numeric segments as the current tag; the
returned tag is a surviving candidate whose sort key — unstable last,
platform-specific last, date-based last, numerics descending — is minimal
(the head of the stable sort).  For current `4.0.17` against the given tag
list the result is `4.0.19`, and for current `5.14.0.9383-ls272` the
candidate `5.14` is rejected while `5.14.0.9384-ls272` is accepted and
returned. -/
theorem check_for_newer_version_spec :
    (∀ (cur : VerTuple) (cu cp : Bool) (curTag t : String)
        (c : NewVersionChecker.Candidate),
      NewVersionChecker.filterCandidate cur cu cp curTag t = some c ↔
        (VersionParser.parse t = some c.ver ∧ c.tag = t ∧
         c.plat = VersionParser.isPlatformSpecific t ∧
         c.unstable = VersionParser.isUnstable t ∧
         VersionParser.compare cur c.ver < 0 ∧
         (VersionParser.isUnstable t = true → cu = true) ∧
         (VersionParser.isPlatformSpecific t = true → cp = true) ∧
         ¬(c.ver.suffix ≠ "" ∧ hasCompoundVersion c.ver.suffix.toList = true) ∧
         NewVersionChecker.countVersionSegments curTag ≤
           NewVersionChecker.countVersionSegments t)) ∧
    (∀ (curTag : String) (tags : List String) (rtag : String) (rver : VerTuple),
      NewVersionChecker.checkForNewerVersion curTag tags = some (rtag, rver) →
      ∃ cur, VersionParser.parse curTag = some cur ∧
      ∃ m ∈ NewVersionChecker.survivors cur (VersionParser.isUnstable curTag)
          (VersionParser.isPlatformSpecific curTag) curTag tags,
        m.tag = rtag ∧ m.ver = rver ∧
        ∀ d ∈ NewVersionChecker.survivors cur (VersionParser.isUnstable curTag)
            (VersionParser.isPlatformSpecific curTag) curTag tags,
          NewVersionChecker.listLt (NewVersionChecker.candKey d)
            (NewVersionChecker.candKey m) = false) ∧
    (NewVersionChecker.checkForNewerVersion "4.0.17"
      ["4.0.18", "4.0.19-beta", "4.0.19", "develop", "5.0.0-windowsservercore"]).map
      Prod.fst = some "4.0.19" ∧
    VersionParser.parse "5.14.0.9383-ls272" = some ⟨false, 5, 14, 0, 9383, "ls272"⟩ ∧
    NewVersionChecker.filterCandidate ⟨false, 5, 14, 0, 9383, "ls272"⟩ false false
      "5.14.0.9383-ls272" "5.14" = none ∧
    (NewVersionChecker.checkForNewerVersion "5.14.0.9383-ls272"
      ["5.14", "5.14.0.9384-ls272"]).map Prod.fst = some "5.14.0.9384-ls272" := by
  refine ⟨?_, ?_, by decide, by decide, by decide, by decide⟩
  · intro cur cu cp curTag t c
    exact NewVersionChecker.filterCandidate_some_iff cur cu cp curTag t c
  · intro curTag tags rtag rver h
    exact NewVersionChecker.check_head curTag tags rtag rver h

/-- Witness for C1 at a concrete instance. -/
theorem check_for_newer_version_spec_witness :
    ∃ cur, VersionParser.parse "4.0.17" = some cur ∧
    ∃ m ∈ NewVersionChecker.survivors cur (VersionParser.isUnstable "4.0.17")
        (VersionParser.isPlatformSpecific "4.0.17") "4.0.17"
        ["4.0.18", "4.0.19-beta", "4.0.19", "develop", "5.0.0-windowsservercore"],
      m.tag = "4.0.19" ∧ m.ver = ⟨false, 4, 0, 19, 0, ""⟩ ∧
      ∀ d ∈ NewVersionChecker.survivors cur (VersionParser.isUnstable "4.0.17")
          (VersionParser.isPlatformSpecific "4.0.17") "4.0.17"
          ["4.0.18", "4.0.19-beta", "4.0.19", "develop", "5.0.0-windowsservercore"],
        NewVersionChecker.listLt (NewVersionChecker.candKey d)
          (NewVersionChecker.candKey m) = false :=
  check_for_newer_version_spec.2.1 "4.0.17"
    ["4.0.18", "4.0.19-beta", "4.0.19", "develop", "5.0.0-windowsservercore"]
    "4.0.19" ⟨false, 4, 0, 19, 0, ""⟩ (by decide)

/-- Sanity anchors: the docstring examples of `VersionParser.parse` and the
unstable/platform classifiers evaluate as the source documents. -/
theorem parse_docstring_examples :
    VersionParser.parse "1.41.3" = some ⟨false, 1, 41, 3, 0, ""⟩ ∧
    VersionParser.parse "v3.5.0" = some ⟨false, 3, 5, 0, 0, ""⟩ ∧
    VersionParser.parse "2.15.0-ls123" = some ⟨false, 2, 15, 0, 0, "ls123"⟩ ∧
    VersionParser.parse "2021.12.16" = some ⟨true, 2021, 12, 16, 0, ""⟩ ∧
    VersionParser.parse "latest" = none ∧
    VersionParser.parse "168" = none ∧
    VersionParser.parse "develop" = none ∧
    VersionParser.isUnstable "4.0.19-beta" = true ∧
    VersionParser.isUnstable "maintenance" = false ∧
    VersionParser.isPlatformSpecific "5.0.0-windowsservercore" = true := by
  decide
